import Mathlib

/-!
Verification development for the Pat voice relay (WebSocket proxy).

The definitions below are a shallow embedding of the relay's source:
the frame codec (`sendWsFrame` / `parseWsFrames`), the per-connection
data handler, the HTTP upgrade handshake, and the configuration gate.
Byte buffers are modelled as `List Nat` (each entry one byte), machine
integers as `Nat` with explicit `% 2^w` where the source relies on
fixed-width arithmetic, and the JavaScript `Number` conversion of a
64-bit big-endian length is modelled explicitly (`jsNumber`).
-/

/-- Big-endian 16-bit read at index `i` (Buffer.readUInt16BE). -/
def readUInt16BE (bs : List Nat) (i : Nat) : Nat :=
  bs.getD i 0 * 256 + bs.getD (i + 1) 0

/-- Big-endian 32-bit read at index `i` (Buffer.readUInt32BE). -/
def readUInt32BE (bs : List Nat) (i : Nat) : Nat :=
  bs.getD i 0 * 2 ^ 24 + bs.getD (i + 1) 0 * 2 ^ 16 +
    bs.getD (i + 2) 0 * 2 ^ 8 + bs.getD (i + 3) 0

/-- Big-endian 64-bit read at index `i` (Buffer.readBigUInt64BE). -/
def readUInt64BE (bs : List Nat) (i : Nat) : Nat :=
  bs.getD i 0 * 2 ^ 56 + bs.getD (i + 1) 0 * 2 ^ 48 +
    bs.getD (i + 2) 0 * 2 ^ 40 + bs.getD (i + 3) 0 * 2 ^ 32 +
    bs.getD (i + 4) 0 * 2 ^ 24 + bs.getD (i + 5) 0 * 2 ^ 16 +
    bs.getD (i + 6) 0 * 2 ^ 8 + bs.getD (i + 7) 0

/-- Big-endian 16-bit byte encoding (Buffer.writeUInt16BE). -/
def be16 (n : Nat) : List Nat := [n / 256 % 256, n % 256]

/-- Big-endian 32-bit byte encoding. -/
def be32 (n : Nat) : List Nat :=
  [n / 2 ^ 24 % 256, n / 2 ^ 16 % 256, n / 2 ^ 8 % 256, n % 256]

/-- Big-endian 64-bit byte encoding (Buffer.writeBigUInt64BE). -/
def be64 (n : Nat) : List Nat :=
  [n / 2 ^ 56 % 256, n / 2 ^ 48 % 256, n / 2 ^ 40 % 256, n / 2 ^ 32 % 256,
   n / 2 ^ 24 % 256, n / 2 ^ 16 % 256, n / 2 ^ 8 % 256, n % 256]

/-- Floor logarithm base 2 computed with explicit fuel so that the kernel
can evaluate it; for `1 ≤ n < 2 ^ fuel` it equals the floor log. -/
def log2Fuel : Nat → Nat → Nat
  | 0, _ => 0
  | fuel + 1, n => if 2 ≤ n then log2Fuel fuel (n / 2) + 1 else 0

/-- Conversion of a 64-bit unsigned integer to a JavaScript `Number`
(IEEE-754 double), as performed by `Number(big)` in the source's
extended-length branch: values below `2 ^ 53` are exact; larger values are
rounded to the nearest representable double (ties to even mantissa).
Faithful for inputs below `2 ^ 64`, which covers every value
`readUInt64BE` can produce from genuine byte buffers. -/
def jsNumber (n : Nat) : Nat :=
  if n < 2 ^ 53 then n
  else
    let e := log2Fuel 64 n
    let ulp := 2 ^ (e - 52)
    let q := n / ulp
    let r := n % ulp
    if r * 2 < ulp then q * ulp
    else if ulp < r * 2 then (q + 1) * ulp
    else if q % 2 = 0 then q * ulp else (q + 1) * ulp

/-- UTF-8 bytes of a string (Buffer.from(s, "utf8")); the relay only ever
serialises ASCII control messages, for which the code points are the bytes. -/
def strBytes (s : String) : List Nat := s.data.map Char.toNat

/-- Decoded WebSocket frame as produced by `parseWsFrames`:
`\x7b opcode, payload \x7d` (the FIN flag is consumed to reject
fragmentation and never stored). -/
structure WsFrame where
  opcode : Nat
  payload : List Nat
deriving Repr, DecidableEq

/-- Outbound frame construction, embedded from `sendWsFrame` (lines 33-62):
first header byte is `0x80 ||| opcode` (FIN = 1), then the base length or
an extended big-endian length, then the raw payload; never masked. -/
def encodeFrame (opcode : Nat) (data : List Nat) : List Nat :=
  let length := data.length
  if length < 126 then
    (0x80 ||| opcode) :: length :: data
  else if length < 65536 then
    (0x80 ||| opcode) :: 126 :: (be16 length ++ data)
  else
    (0x80 ||| opcode) :: 127 :: (be64 length ++ data)

/-- Unmasking loop of `parseWsFrames` (lines 113-117):
`unmasked[i] = payload[i] ^ maskKey[i % 4]`. -/
def unmaskBytes (key payload : List Nat) : List Nat :=
  (List.range payload.length).map fun i => (payload.getD i 0).xor (key.getD (i % 4) 0)

/-- Wire bytes of a client-to-server masked frame: FIN = 1, the given
opcode, mask flag set on the length byte, the appropriate extended length
form for the wire payload, then the 4-byte mask key followed by the masked
payload bytes. This constructs decoder inputs; the relay itself never
sends masked frames. -/
def maskedFrameBytes (opcode : Nat) (key wire : List Nat) : List Nat :=
  if wire.length < 126 then
    (0x80 ||| opcode) :: (0x80 ||| wire.length) :: (key ++ wire)
  else if wire.length < 65536 then
    (0x80 ||| opcode) :: 254 :: (be16 wire.length ++ (key ++ wire))
  else
    (0x80 ||| opcode) :: 255 :: (be64 wire.length ++ (key ++ wire))

/-- Result of attempting to read one frame at the front of the buffer:
either the bytes are insufficient (`needMore`, the loop breaks and retains
them), or the FIN bit is clear (`fragErr`, the parser throws
"Fragmented frames not supported."), or one complete frame together with
the number of bytes it consumed. -/
inductive ParseStep where
  | needMore : ParseStep
  | fragErr : ParseStep
  | frame (f : WsFrame) (consumed : Nat) : ParseStep
deriving Repr, DecidableEq

/-- Shared tail of the parse loop body (lines 105-121): mask handling,
payload-completeness check, extraction and unmasking. -/
def finishFrame (buffer : List Nat) (opcode length headerLen : Nat) (masked : Bool) : ParseStep :=
  if masked then
    if buffer.length < headerLen + 4 + length then .needMore
    else
      .frame
        ⟨opcode,
          unmaskBytes ((buffer.drop headerLen).take 4)
            ((buffer.drop (headerLen + 4)).take length)⟩
        (headerLen + 4 + length)
  else
    if buffer.length < headerLen + length then .needMore
    else .frame ⟨opcode, (buffer.drop headerLen).take length⟩ (headerLen + length)

/-- One iteration of the `parseWsFrames` loop (lines 80-121), operating on
the unconsumed suffix of the buffer: base header, FIN check, extended
length forms 126 and 127 (the latter through `jsNumber`), then
`finishFrame`. -/
def parseFrameAt (buffer : List Nat) : ParseStep :=
  if buffer.length < 2 then .needMore
  else if (buffer.getD 0 0).land 0x80 = 0 then .fragErr
  else if (buffer.getD 1 0).land 0x7f = 126 then
    if buffer.length < 4 then .needMore
    else
      finishFrame buffer ((buffer.getD 0 0).land 0x0f) (readUInt16BE buffer 2) 4
        ((buffer.getD 1 0).land 0x80 != 0)
  else if (buffer.getD 1 0).land 0x7f = 127 then
    if buffer.length < 10 then .needMore
    else
      finishFrame buffer ((buffer.getD 0 0).land 0x0f) (jsNumber (readUInt64BE buffer 2)) 10
        ((buffer.getD 1 0).land 0x80 != 0)
  else
    finishFrame buffer ((buffer.getD 0 0).land 0x0f) ((buffer.getD 1 0).land 0x7f) 2
      ((buffer.getD 1 0).land 0x80 != 0)

instance {ε α : Type} [DecidableEq ε] [DecidableEq α] : DecidableEq (Except ε α) := fun a b =>
  match a, b with
  | .error e1, .error e2 =>
    if h : e1 = e2 then .isTrue (by rw [h]) else .isFalse (by simp [h])
  | .error _, .ok _ => .isFalse (by simp)
  | .ok _, .error _ => .isFalse (by simp)
  | .ok v1, .ok v2 =>
    if h : v1 = v2 then .isTrue (by rw [h]) else .isFalse (by simp [h])

/-- Fuel-indexed parse loop; with fuel at least the buffer length it is
exactly the `while` loop of `parseWsFrames` (each complete frame consumes
at least 2 bytes, so the fuel never runs out). -/
def parseLoop : Nat → List Nat → Except String (List WsFrame × List Nat)
  | 0, buffer => .ok ([], buffer)
  | fuel + 1, buffer =>
    match parseFrameAt buffer with
    | .needMore => .ok ([], buffer)
    | .fragErr => .error "Fragmented frames not supported."
    | .frame f c =>
      match parseLoop fuel (buffer.drop c) with
      | .error e => .error e
      | .ok (fs, rem) => .ok (f :: fs, rem)

/-- Embedding of `parseWsFrames` (lines 76-125): returns the decoded
complete frames and the unconsumed remainder, or the thrown error. -/
def parseWsFrames (buffer : List Nat) : Except String (List WsFrame × List Nat) :=
  parseLoop buffer.length buffer

/-- Readiness of the upstream WebSocket handle, mirroring the
`readyState` values of the platform WebSocket the relay checks against
`WebSocket.OPEN`; `connecting` is the state between construction and the
open event (the spec's `Connecting`), `opened` is `OPEN` (the spec's
`Active`), and `closing`/`closed` follow a close (the spec's `Closed`). -/
inductive ReadyState where
  | connecting : ReadyState
  | opened : ReadyState
  | closing : ReadyState
  | closed : ReadyState
deriving Repr, DecidableEq

/-- Spec-level lifecycle phase of a session (§4.3 of the design). -/
inductive SessionPhase where
  | connectingPhase : SessionPhase
  | activePhase : SessionPhase
  | closedPhase : SessionPhase
deriving Repr, DecidableEq

/-- Phase abstraction: the session is `Active` exactly while the upstream
handle is `OPEN`, and `Closed` once either side has begun closing. -/
def sessionPhase : ReadyState → SessionPhase
  | .connecting => .connectingPhase
  | .opened => .activePhase
  | .closing => .closedPhase
  | .closed => .closedPhase

/-- Effect of `upstream.close()` on the upstream `readyState` (platform
WebSocket semantics: a no-op on an already-closed handle, otherwise the
handle moves to `CLOSING`); the surrounding `try/catch` in `closeBoth`
swallows any exception, so the operation is total. -/
def wsClose : ReadyState → ReadyState
  | .closed => .closed
  | _ => .closing

/-- Observable side effects of the client-data handler (lines 225-259):
bytes written to the client socket, payloads forwarded to the upstream
socket, and the `closeBoth` teardown. -/
inductive BridgeAction where
  | writeClient (bytes : List Nat) : BridgeAction
  | upstreamSendText (payload : List Nat) : BridgeAction
  | upstreamSendBinary (payload : List Nat) : BridgeAction
  | closeBoth : BridgeAction
deriving Repr, DecidableEq

/-- JSON text produced by `JSON.stringify(\x7b type: "error", error: msg \x7d)`
as sent by `sendJson` for error conditions. -/
def errorJson (msg : String) : String :=
  "\x7b\"type\":\"error\",\"error\":\"" ++ msg ++ "\"\x7d"

/-- Frame loop of the data handler (lines 238-258): every frame is skipped
unless the upstream handle is `OPEN`; a close frame triggers `closeBoth`
and returns from the handler (dropping any later frames of the batch);
ping frames are answered by `sendPong` (a frame with opcode `0xA` and the
same payload); pong and unrecognised opcodes are discarded; text and
binary frames are forwarded upstream. -/
def processFrames (st : ReadyState) : List WsFrame → List BridgeAction × ReadyState
  | [] => ([], st)
  | f :: rest =>
    if st ≠ .opened then processFrames st rest
    else if f.opcode = 0x8 then ([BridgeAction.closeBoth], wsClose st)
    else if f.opcode = 0x9 then
      let r := processFrames st rest
      (BridgeAction.writeClient (encodeFrame 0xA f.payload) :: r.1, r.2)
    else if f.opcode = 0xA then processFrames st rest
    else if f.opcode ≠ 0x1 ∧ f.opcode ≠ 0x2 then processFrames st rest
    else if f.opcode = 0x1 then
      let r := processFrames st rest
      (BridgeAction.upstreamSendText f.payload :: r.1, r.2)
    else
      let r := processFrames st rest
      (BridgeAction.upstreamSendBinary f.payload :: r.1, r.2)

/-- Embedding of the `socket.on("data")` handler (lines 225-259): append
the chunk to the receive buffer, parse; on a parse error send one
structured error frame and tear down both transports (the buffer variable
is left as-is, unreachable after the teardown); otherwise keep the
remainder as the new buffer and run the frame loop. -/
def dataStep (st : ReadyState) (buf chunk : List Nat) :
    List BridgeAction × ReadyState × List Nat :=
  let buf2 := buf ++ chunk
  match parseWsFrames buf2 with
  | .error e =>
    ([BridgeAction.writeClient (encodeFrame 0x1 (strBytes (errorJson e))), BridgeAction.closeBoth],
      wsClose st, buf2)
  | .ok (frames, remaining) =>
    let r := processFrames st frames
    (r.1, r.2, remaining)

/-- Transport pair owned by a session: the upstream handle's state and
whether the client socket is still writable. -/
structure SessionTransports where
  upstreamState : ReadyState
  clientWritable : Bool
deriving Repr, DecidableEq

/-- Embedding of `closeBoth` (lines 212-223): `upstream?.close()` and
`socket.end()`, each wrapped in `try/catch \x7b \x7d`, so the operation is a
total function on the transport pair. -/
def closeBothFn (t : SessionTransports) : SessionTransports :=
  ⟨wsClose t.upstreamState, false⟩

/-- Whitespace as recognised by JavaScript's `String.prototype.trim`:
the ASCII whitespace characters plus no-break space, BOM and the Unicode
line and paragraph separators (the Zs code points the relay could
plausibly meet). -/
def isJsWhitespace (c : Char) : Bool :=
  c = ' ' || c = '\t' || c = '\n' || c = '\r' || c = '\x0b' || c = '\x0c' ||
    c = '\u00A0' || c = '\uFEFF' || c = '\u2028' || c = '\u2029'

/-- Embedding of JavaScript `s.trim()`: strip leading and trailing
whitespace. -/
def jsTrim (s : String) : String :=
  String.mk (((s.data.dropWhile isJsWhitespace).reverse.dropWhile isJsWhitespace).reverse)

/-- Error message for an absent upstream credential (line 178). -/
def missingKeyMsg : String := "Missing XAI_API_KEY in pat/.env.local"

/-- Error message for an absent upstream endpoint URL (line 179). -/
def missingUrlMsg : String := "Missing XAI_REALTIME_WS_URL in pat/.env.local"

/-- Outcome of the configuration gate in the upgrade handler: either the
session is rejected with a list of frames written to the client before
`socket.end()`, or the handler proceeds to construct the upstream
WebSocket. -/
inductive ConfigOutcome where
  | rejected (writes : List (List Nat)) : ConfigOutcome
  | proceed : ConfigOutcome
deriving Repr, DecidableEq

/-- Embedding of the configuration gate (lines 169-184): if the trimmed
credential or trimmed endpoint URL is empty, write one structured error
frame naming the missing variable, then one empty text frame, then end
the socket without constructing the upstream connection; otherwise
proceed. -/
def upgradeConfigStep (xaiKey upstreamUrl : String) : ConfigOutcome :=
  if jsTrim xaiKey = "" ∨ jsTrim upstreamUrl = "" then
    .rejected
      [encodeFrame 0x1 (strBytes (errorJson
          (if jsTrim xaiKey = "" then missingKeyMsg else missingUrlMsg))),
        encodeFrame 0x1 []]
  else .proceed

/-- Recogniser for a client-bound frame that carries a structured error
message: a short text frame whose payload begins with the serialised
error-object prefix. -/
def isErrorFrameBytes (bs : List Nat) : Bool :=
  decide ((bs.drop 2).take 16 = strBytes "\x7b\"type\":\"error\",")

/-- Left rotation of a 32-bit word; for `x < 2 ^ 32` and `n ≤ 32` this is
the standard bit rotation. -/
def rotl32 (x n : Nat) : Nat := (x * 2 ^ n + x / 2 ^ (32 - n)) % 2 ^ 32

/-- SHA-1 message padding: append `0x80`, zero bytes up to 56 mod 64, then
the original bit length as a big-endian 64-bit value. -/
def sha1Pad (msg : List Nat) : List Nat :=
  let zeros := (56 + 64 - (msg.length + 1) % 64) % 64
  msg ++ 0x80 :: (List.replicate zeros 0 ++ be64 (msg.length * 8))

/-- Split a byte list into successive 64-byte blocks (fuel-indexed;
`fuel` at least the list length always suffices). -/
def chunks64 : Nat → List Nat → List (List Nat)
  | 0, _ => []
  | fuel + 1, l => if l = [] then [] else l.take 64 :: chunks64 fuel (l.drop 64)

/-- The 16 initial 32-bit words of a 64-byte block. -/
def wordsOfBlock (block : List Nat) : List Nat :=
  (List.range 16).map fun i => readUInt32BE block (4 * i)

/-- One step of the SHA-1 message-schedule extension:
`w[i] = rotl1 (w[i-3] xor w[i-8] xor w[i-14] xor w[i-16])`. -/
def sha1ExtendStep (ws : List Nat) : List Nat :=
  ws ++ [rotl32
    ((ws.getD (ws.length - 3) 0).xor
      ((ws.getD (ws.length - 8) 0).xor
        ((ws.getD (ws.length - 14) 0).xor (ws.getD (ws.length - 16) 0)))) 1]

/-- Iterated schedule extension; applied 64 times to the 16 block words it
yields the 80-word schedule. -/
def sha1Extend : Nat → List Nat → List Nat
  | 0, ws => ws
  | n + 1, ws => sha1Extend n (sha1ExtendStep ws)

/-- SHA-1 round function for round `t`. -/
def sha1F (t b c d : Nat) : Nat :=
  if t < 20 then (b.land c).lor ((b.xor 0xFFFFFFFF).land d)
  else if t < 40 then b.xor (c.xor d)
  else if t < 60 then (b.land c).lor ((b.land d).lor (c.land d))
  else b.xor (c.xor d)

/-- SHA-1 round constant for round `t`. -/
def sha1K (t : Nat) : Nat :=
  if t < 20 then 0x5A827999
  else if t < 40 then 0x6ED9EBA1
  else if t < 60 then 0x8F1BBCDC
  else 0xCA62C1D6

/-- SHA-1 compression rounds: run `count` rounds starting at round `t`
over the schedule `w` with working state `(a, b, c, d, e)`. -/
def sha1Rounds (w : List Nat) : Nat → Nat → Nat → Nat → Nat → Nat → Nat →
    Nat × Nat × Nat × Nat × Nat
  | 0, _, a, b, c, d, e => (a, b, c, d, e)
  | count + 1, t, a, b, c, d, e =>
    let temp := (rotl32 a 5 + sha1F t b c d + e + sha1K t + w.getD t 0) % 2 ^ 32
    sha1Rounds w count (t + 1) temp a (rotl32 b 30) c d

/-- SHA-1 compression of one 64-byte block into the running hash state. -/
def sha1Compress (h : Nat × Nat × Nat × Nat × Nat) (block : List Nat) :
    Nat × Nat × Nat × Nat × Nat :=
  let w := sha1Extend 64 (wordsOfBlock block)
  match h with
  | (h0, h1, h2, h3, h4) =>
    match sha1Rounds w 80 0 h0 h1 h2 h3 h4 with
    | (a, b, c, d, e) =>
      ((h0 + a) % 2 ^ 32, (h1 + b) % 2 ^ 32, (h2 + c) % 2 ^ 32,
        (h3 + d) % 2 ^ 32, (h4 + e) % 2 ^ 32)

/-- SHA-1 digest (20 bytes) of a byte message, as computed by
`crypto.createHash("sha1")` in the handshake handler. -/
def sha1Bytes (msg : List Nat) : List Nat :=
  let padded := sha1Pad msg
  let blocks := chunks64 padded.length padded
  match blocks.foldl sha1Compress
      (0x67452301, 0xEFCDAB89, 0x98BADCFE, 0x10325476, 0xC3D2E1F0) with
  | (h0, h1, h2, h3, h4) => be32 h0 ++ be32 h1 ++ be32 h2 ++ be32 h3 ++ be32 h4

/-- Character of the standard base64 alphabet at index `n`. -/
def b64Char (n : Nat) : Char :=
  "ABCDEFGHIJKLMNOPQRSTUVWXYZabcdefghijklmnopqrstuvwxyz0123456789+/".toList.getD n 'A'

/-- Standard base64 encoding with padding, as produced by
`digest("base64")`. -/
def base64Encode : List Nat → String
  | [] => ""
  | [b0] => String.mk [b64Char (b0 / 4), b64Char (b0 % 4 * 16), '=', '=']
  | [b0, b1] =>
    String.mk [b64Char (b0 / 4), b64Char (b0 % 4 * 16 + b1 / 16), b64Char (b1 % 16 * 4), '=']
  | b0 :: b1 :: b2 :: rest =>
    String.mk [b64Char (b0 / 4), b64Char (b0 % 4 * 16 + b1 / 16),
      b64Char (b1 % 16 * 4 + b2 / 64), b64Char (b2 % 64)] ++ base64Encode rest

/-- Upgrade request as seen by the `server.on("upgrade")` handler: the
path extracted from the request URL (via the platform URL class), and the
`Sec-WebSocket-Key` / `Sec-WebSocket-Version` headers when they are
present as single strings (`none` models an absent header or a non-string
header value, both of which fail the `typeof key !== "string"` /
`version !== "13"` tests). -/
structure UpgradeRequest where
  pathname : String
  secKey : Option String
  secVersion : Option String
deriving Repr, DecidableEq

/-- Result of the handshake: the bytes written to the raw socket and
whether the connection was accepted (handed to the relay bridge) rather
than destroyed. -/
structure HandshakeOutcome where
  written : String
  accepted : Bool
deriving Repr, DecidableEq

/-- The fixed WebSocket GUID appended to the key (line 154). -/
def wsGuid : String := "258EAFA5-E914-47DA-95CA-C5AB0DC85B11"

/-- Accept token: base64(SHA-1(key ++ GUID)) (lines 152-155). -/
def wsAccept (key : String) : String :=
  base64Encode (sha1Bytes (strBytes (key ++ wsGuid)))

/-- Status line written on a missing key or wrong version (line 147). -/
def badRequestBytes : String := "HTTP/1.1 400 Bad Request\r\n\r\n"

/-- The 101 response written on success (lines 157-165): the source joins
the five lines (the last being "\r\n") with "\r\n". -/
def response101 (accept : String) : String :=
  "HTTP/1.1 101 Switching Protocols\r\nUpgrade: websocket\r\nConnection: Upgrade\r\n" ++
    "Sec-WebSocket-Accept: " ++ accept ++ "\r\n\r\n"

/-- Embedding of the upgrade handler's handshake portion (lines 137-165):
destroy with no bytes unless the path is "/voice"; answer 400 and destroy
unless the key header is a string and the version header equals "13";
otherwise write the 101 response carrying the accept token. -/
def handshakeUpgrade (r : UpgradeRequest) : HandshakeOutcome :=
  if r.pathname ≠ "/voice" then ⟨"", false⟩
  else
    match r.secKey with
    | none => ⟨badRequestBytes, false⟩
    | some key =>
      if r.secVersion ≠ some "13" then ⟨badRequestBytes, false⟩
      else ⟨response101 (wsAccept key), true⟩

/-! Bit-level facts about the header bytes, discharged by bounded
evaluation. -/

theorem lor128_land128 : ∀ op : Nat, op < 16 → (0x80 ||| op).land 0x80 = 0x80 := by decide

theorem lor128_land15 : ∀ op : Nat, op < 16 → (0x80 ||| op).land 0x0f = op := by decide

theorem small_land128 : ∀ n : Nat, n < 126 → n.land 0x80 = 0 := by decide

theorem small_land127 : ∀ n : Nat, n < 126 → n.land 0x7f = n := by decide

theorem masked_small_land128 : ∀ n : Nat, n < 126 → (0x80 ||| n).land 0x80 = 0x80 := by decide

theorem masked_small_land127 : ∀ n : Nat, n < 126 → (0x80 ||| n).land 0x7f = n := by decide

/-! Structural facts about `parseFrameAt`. -/

theorem finishFrame_frame_iff {buffer : List Nat} {op len hdr : Nat} {m : Bool}
    {f : WsFrame} {c : Nat} (h : finishFrame buffer op len hdr m = .frame f c) :
    c = hdr + (if m then 4 else 0) + len ∧ c ≤ buffer.length := by
  cases m <;>
  · simp only [finishFrame, Bool.false_eq_true, if_false, if_true, ite_false, ite_true] at h ⊢
    split at h
    · exact ParseStep.noConfusion h
    · rename_i hlen
      simp only [ParseStep.frame.injEq] at h
      obtain ⟨-, h2⟩ := h
      omega

theorem parseFrameAt_frame_bounds {b : List Nat} {f : WsFrame} {c : Nat}
    (h : parseFrameAt b = .frame f c) : 2 ≤ c ∧ c ≤ b.length := by
  unfold parseFrameAt at h
  split at h
  · exact ParseStep.noConfusion h
  split at h
  · exact ParseStep.noConfusion h
  split at h
  · split at h
    · exact ParseStep.noConfusion h
    · have := finishFrame_frame_iff h
      omega
  split at h
  · split at h
    · exact ParseStep.noConfusion h
    · have := finishFrame_frame_iff h
      omega
  have := finishFrame_frame_iff h
  omega

theorem parseFrameAt_fragErr_length {b : List Nat}
    (h : parseFrameAt b = .fragErr) : 2 ≤ b.length := by
  unfold parseFrameAt at h
  split at h
  · exact ParseStep.noConfusion h
  · omega

theorem parseLoop_congr :
    ∀ (f1 f2 : Nat) (b : List Nat), b.length ≤ f1 → b.length ≤ f2 →
      parseLoop f1 b = parseLoop f2 b := by
  intro f1
  induction f1 with
  | zero =>
    intro f2 b h1 h2
    have hb : b = [] := List.length_eq_zero.mp (Nat.le_zero.mp h1)
    subst hb
    cases f2 with
    | zero => rfl
    | succ m =>
      have : parseFrameAt [] = .needMore := by decide
      simp [parseLoop, this]
  | succ n ih =>
    intro f2 b h1 h2
    cases f2 with
    | zero =>
      have hb : b = [] := List.length_eq_zero.mp (Nat.le_zero.mp h2)
      subst hb
      have : parseFrameAt [] = .needMore := by decide
      simp [parseLoop, this]
    | succ m =>
      cases hp : parseFrameAt b with
      | needMore => simp only [parseLoop, hp]
      | fragErr => simp only [parseLoop, hp]
      | frame f c =>
        have hb := parseFrameAt_frame_bounds hp
        have hlen : (b.drop c).length ≤ n := by
          simp only [List.length_drop]
          omega
        have hlen2 : (b.drop c).length ≤ m := by
          simp only [List.length_drop]
          omega
        simp only [parseLoop, hp]
        rw [ih m (b.drop c) hlen hlen2]

/-- Canonical unfolding of `parseWsFrames`: one loop iteration at the
front of the buffer, then the parse of the consumed buffer's suffix. -/
theorem parseWsFrames_eq (b : List Nat) :
    parseWsFrames b =
      match parseFrameAt b with
      | .needMore => .ok ([], b)
      | .fragErr => .error "Fragmented frames not supported."
      | .frame f c =>
        match parseWsFrames (b.drop c) with
        | .error e => .error e
        | .ok (fs, rem) => .ok (f :: fs, rem) := by
  unfold parseWsFrames
  cases hl : b.length with
  | zero =>
    have hb : b = [] := List.length_eq_zero.mp hl
    subst hb
    have : parseFrameAt [] = .needMore := by decide
    simp [parseLoop, this]
  | succ n =>
    cases hp : parseFrameAt b with
    | needMore => simp only [parseLoop, hp]
    | fragErr => simp only [parseLoop, hp]
    | frame f c =>
      have hb := parseFrameAt_frame_bounds hp
      simp only [parseLoop, hp]
      have heq : parseLoop n (b.drop c) = parseLoop (b.drop c).length (b.drop c) := by
        apply parseLoop_congr
        · simp only [List.length_drop]
          omega
        · exact Nat.le_refl _
      rw [heq]

theorem finishFrame_ne_fragErr (buffer : List Nat) (op len hdr : Nat) (m : Bool) :
    finishFrame buffer op len hdr m ≠ .fragErr := by
  unfold finishFrame
  split <;> split <;> simp

theorem finishFrame_frame_append {b ext : List Nat} {op len hdr : Nat} {m : Bool}
    {f : WsFrame} {c : Nat} (h : finishFrame b op len hdr m = .frame f c) :
    finishFrame (b ++ ext) op len hdr m = .frame f c := by
  cases m with
  | false =>
    simp only [finishFrame, Bool.false_eq_true, if_false, ite_false] at h ⊢
    split at h
    · exact ParseStep.noConfusion h
    rename_i hguard
    rw [if_neg (by simp only [List.length_append]; omega)]
    rw [List.drop_append_of_le_length (by omega),
      List.take_append_of_le_length (by simp only [List.length_drop]; omega)]
    exact h
  | true =>
    simp only [finishFrame, if_true, ite_true] at h ⊢
    split at h
    · exact ParseStep.noConfusion h
    rename_i hguard
    rw [if_neg (by simp only [List.length_append]; omega)]
    rw [List.drop_append_of_le_length (show hdr ≤ b.length by omega),
      List.take_append_of_le_length (by simp only [List.length_drop]; omega),
      List.drop_append_of_le_length (show hdr + 4 ≤ b.length by omega),
      List.take_append_of_le_length (by simp only [List.length_drop]; omega)]
    exact h

theorem parseFrameAt_fragErr_append {b ext : List Nat}
    (h : parseFrameAt b = .fragErr) : parseFrameAt (b ++ ext) = .fragErr := by
  have hlen2 := parseFrameAt_fragErr_length h
  unfold parseFrameAt at h ⊢
  rw [if_neg (by omega)] at h
  have e0 : (b ++ ext).getD 0 0 = b.getD 0 0 := List.getD_append _ _ _ _ (by omega)
  rw [if_neg (by simp only [List.length_append]; omega), e0]
  split at h
  · rename_i hfin
    rw [if_pos hfin]
  · repeat' split at h
    all_goals first
      | exact ParseStep.noConfusion h
      | exact absurd h (finishFrame_ne_fragErr _ _ _ _ _)

theorem parseFrameAt_frame_append {b ext : List Nat} {f : WsFrame} {c : Nat}
    (h : parseFrameAt b = .frame f c) : parseFrameAt (b ++ ext) = .frame f c := by
  unfold parseFrameAt at h ⊢
  split at h
  · exact ParseStep.noConfusion h
  rename_i hlen2
  have e0 : (b ++ ext).getD 0 0 = b.getD 0 0 := List.getD_append _ _ _ _ (by omega)
  have e1 : (b ++ ext).getD 1 0 = b.getD 1 0 := List.getD_append _ _ _ _ (by omega)
  rw [if_neg (by simp only [List.length_append]; omega), e0, e1]
  split at h
  · exact ParseStep.noConfusion h
  rename_i hfin
  rw [if_neg hfin]
  split at h
  · rename_i h126
    rw [if_pos h126]
    split at h
    · exact ParseStep.noConfusion h
    rename_i hlen4
    rw [if_neg (show ¬(b ++ ext).length < 4 by simp only [List.length_append]; omega)]
    have e16 : readUInt16BE (b ++ ext) 2 = readUInt16BE b 2 := by
      unfold readUInt16BE
      rw [List.getD_append _ _ _ _ (by omega), List.getD_append _ _ _ _ (by omega)]
    rw [e16]
    exact finishFrame_frame_append h
  rename_i h126
  rw [if_neg h126]
  split at h
  · rename_i h127
    rw [if_pos h127]
    split at h
    · exact ParseStep.noConfusion h
    rename_i hlen10
    rw [if_neg (show ¬(b ++ ext).length < 10 by simp only [List.length_append]; omega)]
    have e64 : readUInt64BE (b ++ ext) 2 = readUInt64BE b 2 := by
      unfold readUInt64BE
      rw [List.getD_append _ _ _ _ (by omega), List.getD_append _ _ _ _ (by omega),
        List.getD_append _ _ _ _ (by omega), List.getD_append _ _ _ _ (by omega),
        List.getD_append _ _ _ _ (by omega), List.getD_append _ _ _ _ (by omega),
        List.getD_append _ _ _ _ (by omega), List.getD_append _ _ _ _ (by omega)]
    rw [e64]
    exact finishFrame_frame_append h
  rename_i h127
  rw [if_neg h127]
  exact finishFrame_frame_append h

theorem parseWsFrames_append_aux :
    ∀ (n : Nat) (c1 c2 : List Nat), c1.length ≤ n →
      parseWsFrames (c1 ++ c2) =
        match parseWsFrames c1 with
        | .error e => .error e
        | .ok (fs1, rem1) =>
          match parseWsFrames (rem1 ++ c2) with
          | .error e => .error e
          | .ok (fs2, rem2) => .ok (fs1 ++ fs2, rem2) := by
  intro n
  induction n with
  | zero =>
    intro c1 c2 h
    have hc : c1 = [] := List.length_eq_zero.mp (Nat.le_zero.mp h)
    subst hc
    have h1 : parseWsFrames [] = .ok ([], []) := rfl
    rw [h1, List.nil_append]
    cases hq : parseWsFrames c2 with
    | error e => simp [hq]
    | ok p =>
      obtain ⟨fs2, rem2⟩ := p
      simp [hq]
  | succ n ih =>
    intro c1 c2 h
    cases hp : parseFrameAt c1 with
    | needMore =>
      have h1 : parseWsFrames c1 = .ok ([], c1) := by rw [parseWsFrames_eq, hp]
      rw [h1]
      cases hq : parseWsFrames (c1 ++ c2) with
      | error e => simp [hq]
      | ok p =>
        obtain ⟨fs2, rem2⟩ := p
        simp [hq]
    | fragErr =>
      have h1 : parseWsFrames c1 = .error "Fragmented frames not supported." := by
        rw [parseWsFrames_eq, hp]
      have h2 : parseWsFrames (c1 ++ c2) = .error "Fragmented frames not supported." := by
        rw [parseWsFrames_eq, parseFrameAt_fragErr_append hp]
      rw [h1, h2]
    | frame f c =>
      have hb := parseFrameAt_frame_bounds hp
      have hdrop : (c1 ++ c2).drop c = c1.drop c ++ c2 :=
        List.drop_append_of_le_length hb.2
      have ihx := ih (c1.drop c) c2 (by simp only [List.length_drop]; omega)
      have h0 : parseWsFrames (c1 ++ c2) =
          match parseWsFrames ((c1 ++ c2).drop c) with
          | .error e => .error e
          | .ok (fs, rem) => .ok (f :: fs, rem) := by
        rw [parseWsFrames_eq (c1 ++ c2), parseFrameAt_frame_append hp]
      have h2 : parseWsFrames c1 =
          match parseWsFrames (c1.drop c) with
          | .error e => .error e
          | .ok (fs, rem) => .ok (f :: fs, rem) := by
        rw [parseWsFrames_eq c1, hp]
      rw [hdrop] at h0
      rw [h0, h2, ihx]
      cases hr : parseWsFrames (c1.drop c) with
      | error e => simp [hr]
      | ok p =>
        obtain ⟨fs1, rem1⟩ := p
        cases hs : parseWsFrames (rem1 ++ c2) with
        | error e => simp [hr, hs]
        | ok q =>
          obtain ⟨fs2, rem2⟩ := q
          simp [hr, hs]

/-- Compositionality of the decoder over buffer concatenation: parsing
`c1 ++ c2` is parsing `c1`, then parsing its retained remainder with `c2`
appended, with the frame lists concatenated (and errors propagated). -/
theorem parseWsFrames_append (c1 c2 : List Nat) :
    parseWsFrames (c1 ++ c2) =
      match parseWsFrames c1 with
      | .error e => .error e
      | .ok (fs1, rem1) =>
        match parseWsFrames (rem1 ++ c2) with
        | .error e => .error e
        | .ok (fs2, rem2) => .ok (fs1 ++ fs2, rem2) :=
  parseWsFrames_append_aux c1.length c1 c2 (Nat.le_refl _)

theorem parseWsFrames_remainder_aux :
    ∀ (n : Nat) (b : List Nat) (fs : List WsFrame) (rem : List Nat), b.length ≤ n →
      parseWsFrames b = .ok (fs, rem) → ∃ k, k ≤ b.length ∧ rem = b.drop k := by
  intro n
  induction n with
  | zero =>
    intro b fs rem h hp
    have hb : b = [] := List.length_eq_zero.mp (Nat.le_zero.mp h)
    subst hb
    refine ⟨0, Nat.le_refl _, ?_⟩
    have : parseWsFrames [] = .ok ([], []) := rfl
    rw [this] at hp
    simp only [Except.ok.injEq, Prod.mk.injEq] at hp
    exact hp.2.symm
  | succ n ih =>
    intro b fs rem h hp
    cases hq : parseFrameAt b with
    | needMore =>
      have h1 : parseWsFrames b = .ok ([], b) := by rw [parseWsFrames_eq, hq]
      rw [h1] at hp
      simp only [Except.ok.injEq, Prod.mk.injEq] at hp
      exact ⟨0, Nat.zero_le _, by rw [← hp.2, List.drop_zero]⟩
    | fragErr =>
      have h1 : parseWsFrames b = .error "Fragmented frames not supported." := by
        rw [parseWsFrames_eq, hq]
      rw [h1] at hp
      exact Except.noConfusion hp
    | frame f c =>
      have hb := parseFrameAt_frame_bounds hq
      have h1 : parseWsFrames b =
          match parseWsFrames (b.drop c) with
          | .error e => .error e
          | .ok (fs1, rem1) => .ok (f :: fs1, rem1) := by
        rw [parseWsFrames_eq b, hq]
      rw [h1] at hp
      cases hr : parseWsFrames (b.drop c) with
      | error e =>
        rw [hr] at hp
        exact Except.noConfusion hp
      | ok p =>
        obtain ⟨fs1, rem1⟩ := p
        rw [hr] at hp
        simp only [Except.ok.injEq, Prod.mk.injEq] at hp
        obtain ⟨k, hk, hrem⟩ :=
          ih (b.drop c) fs1 rem1 (by simp only [List.length_drop]; omega) hr
        refine ⟨c + k, ?_, ?_⟩
        · simp only [List.length_drop] at hk
          omega
        · rw [← hp.2, hrem, List.drop_drop]

/-- The retained remainder is always a suffix of the input buffer: every
unconsumed byte is kept for the next read. -/
theorem parseWsFrames_remainder {b : List Nat} {fs : List WsFrame} {rem : List Nat}
    (h : parseWsFrames b = .ok (fs, rem)) : ∃ k, k ≤ b.length ∧ rem = b.drop k :=
  parseWsFrames_remainder_aux b.length b fs rem (Nat.le_refl _) h

theorem jsNumber_small {n : Nat} (h : n < 2 ^ 53) : jsNumber n = n := by
  unfold jsNumber
  rw [if_pos h]

theorem finishFrame_unmasked {buffer : List Nat} {op len hdr : Nat} (payload rest : List Nat)
    (hdrop : buffer.drop hdr = payload ++ rest) (hlenp : payload.length = len)
    (hlen : buffer.length = hdr + len + rest.length) :
    finishFrame buffer op len hdr false = .frame ⟨op, payload⟩ (hdr + len) := by
  unfold finishFrame
  rw [if_neg (by simp), if_neg (by omega), hdrop, ← hlenp, List.take_left]

theorem parseFrameAt_encode (op : Nat) (payload rest : List Nat) (hop : op < 16)
    (hlen : payload.length < 2 ^ 53) :
    parseFrameAt (encodeFrame op payload ++ rest) =
      .frame ⟨op, payload⟩ (encodeFrame op payload).length := by
  have hfin : (0x80 ||| op).land 0x80 = 0x80 := lor128_land128 op hop
  have hopc : (0x80 ||| op).land 0x0f = op := lor128_land15 op hop
  by_cases h1 : payload.length < 126
  · have henc : encodeFrame op payload = (0x80 ||| op) :: payload.length :: payload := by
      unfold encodeFrame
      rw [if_pos h1]
    rw [henc]
    have hbuf : ((0x80 ||| op) :: payload.length :: payload) ++ rest =
        (0x80 ||| op) :: payload.length :: (payload ++ rest) := by simp
    rw [hbuf]
    unfold parseFrameAt
    have e0 : ((0x80 ||| op) :: payload.length :: (payload ++ rest)).getD 0 0 = 0x80 ||| op := rfl
    have e1 : ((0x80 ||| op) :: payload.length :: (payload ++ rest)).getD 1 0 =
        payload.length := rfl
    rw [e0, e1, hfin, hopc, small_land128 _ h1, small_land127 _ h1]
    rw [if_neg (by simp), if_neg (by omega), if_neg (by omega), if_neg (by omega)]
    have : (payload.length != 0) = false ∨ True := Or.inr trivial
    rw [show ((0 : Nat) != 0) = false from rfl]
    have hff : finishFrame ((0x80 ||| op) :: payload.length :: (payload ++ rest)) op
        payload.length 2 false = .frame ⟨op, payload⟩ (2 + payload.length) :=
      finishFrame_unmasked payload rest rfl rfl (by simp [List.length_append]; omega)
    rw [hff]
    simp [List.length_cons]
    omega
  · by_cases h2 : payload.length < 65536
    · have henc : encodeFrame op payload =
          (0x80 ||| op) :: 126 :: (be16 payload.length ++ payload) := by
        unfold encodeFrame
        rw [if_neg (by omega), if_pos h2]
      rw [henc]
      have hbuf : ((0x80 ||| op) :: 126 :: (be16 payload.length ++ payload)) ++ rest =
          (0x80 ||| op) :: 126 ::
            (payload.length / 256 % 256 :: payload.length % 256 :: (payload ++ rest)) := by
        simp [be16]
      rw [hbuf]
      unfold parseFrameAt
      rw [show ((0x80 ||| op) :: 126 ::
          (payload.length / 256 % 256 :: payload.length % 256 :: (payload ++ rest))).getD 0 0 =
          0x80 ||| op from rfl,
        show ((0x80 ||| op) :: 126 ::
          (payload.length / 256 % 256 :: payload.length % 256 :: (payload ++ rest))).getD 1 0 =
          126 from rfl,
        hfin, hopc]
      rw [if_neg (by simp), if_neg (by simp), if_pos (by decide), if_neg (by simp [List.length_append])]
      have h16 : readUInt16BE ((0x80 ||| op) :: 126 ::
          (payload.length / 256 % 256 :: payload.length % 256 :: (payload ++ rest))) 2 =
          payload.length := by
        unfold readUInt16BE
        simp only [List.getD_cons_succ, List.getD_cons_zero]
        omega
      rw [h16, show ((126 : Nat).land 0x80 != 0) = false from rfl]
      have hff : finishFrame ((0x80 ||| op) :: 126 ::
          (payload.length / 256 % 256 :: payload.length % 256 :: (payload ++ rest))) op
          payload.length 4 false = .frame ⟨op, payload⟩ (4 + payload.length) :=
        finishFrame_unmasked payload rest rfl rfl (by simp [List.length_append]; omega)
      rw [hff]
      simp [be16, List.length_append]
      omega
    · have henc : encodeFrame op payload =
          (0x80 ||| op) :: 127 :: (be64 payload.length ++ payload) := by
        unfold encodeFrame
        rw [if_neg (by omega), if_neg (by omega)]
      rw [henc]
      have hbuf : ((0x80 ||| op) :: 127 :: (be64 payload.length ++ payload)) ++ rest =
          (0x80 ||| op) :: 127 ::
            (payload.length / 2 ^ 56 % 256 :: payload.length / 2 ^ 48 % 256 ::
              payload.length / 2 ^ 40 % 256 :: payload.length / 2 ^ 32 % 256 ::
              payload.length / 2 ^ 24 % 256 :: payload.length / 2 ^ 16 % 256 ::
              payload.length / 2 ^ 8 % 256 :: payload.length % 256 :: (payload ++ rest)) := by
        simp [be64]
      rw [hbuf]
      unfold parseFrameAt
      rw [show ((0x80 ||| op) :: 127 ::
          (payload.length / 2 ^ 56 % 256 :: payload.length / 2 ^ 48 % 256 ::
            payload.length / 2 ^ 40 % 256 :: payload.length / 2 ^ 32 % 256 ::
            payload.length / 2 ^ 24 % 256 :: payload.length / 2 ^ 16 % 256 ::
            payload.length / 2 ^ 8 % 256 :: payload.length % 256 :: (payload ++ rest))).getD 0 0 =
          0x80 ||| op from rfl,
        show ((0x80 ||| op) :: 127 ::
          (payload.length / 2 ^ 56 % 256 :: payload.length / 2 ^ 48 % 256 ::
            payload.length / 2 ^ 40 % 256 :: payload.length / 2 ^ 32 % 256 ::
            payload.length / 2 ^ 24 % 256 :: payload.length / 2 ^ 16 % 256 ::
            payload.length / 2 ^ 8 % 256 :: payload.length % 256 :: (payload ++ rest))).getD 1 0 =
          127 from rfl,
        hfin, hopc]
      rw [if_neg (by simp), if_neg (by simp), if_neg (by decide), if_pos (by decide),
        if_neg (by simp [List.length_append])]
      have h64 : readUInt64BE ((0x80 ||| op) :: 127 ::
          (payload.length / 2 ^ 56 % 256 :: payload.length / 2 ^ 48 % 256 ::
            payload.length / 2 ^ 40 % 256 :: payload.length / 2 ^ 32 % 256 ::
            payload.length / 2 ^ 24 % 256 :: payload.length / 2 ^ 16 % 256 ::
            payload.length / 2 ^ 8 % 256 :: payload.length % 256 :: (payload ++ rest))) 2 =
          payload.length := by
        unfold readUInt64BE
        simp only [List.getD_cons_succ, List.getD_cons_zero]
        have hub : payload.length < 2 ^ 64 := by
          calc payload.length < 2 ^ 53 := hlen
          _ < 2 ^ 64 := by norm_num
        omega
      rw [h64, jsNumber_small hlen, show ((127 : Nat).land 0x80 != 0) = false from rfl]
      have hff : finishFrame ((0x80 ||| op) :: 127 ::
          (payload.length / 2 ^ 56 % 256 :: payload.length / 2 ^ 48 % 256 ::
            payload.length / 2 ^ 40 % 256 :: payload.length / 2 ^ 32 % 256 ::
            payload.length / 2 ^ 24 % 256 :: payload.length / 2 ^ 16 % 256 ::
            payload.length / 2 ^ 8 % 256 :: payload.length % 256 :: (payload ++ rest))) op
          payload.length 10 false = .frame ⟨op, payload⟩ (10 + payload.length) :=
        finishFrame_unmasked payload rest rfl rfl (by simp [List.length_append]; omega)
      rw [hff]
      simp [be64, List.length_append]
      omega

theorem parseWsFrames_encode_cons (op : Nat) (payload tail : List Nat) (hop : op < 16)
    (hlen : payload.length < 2 ^ 53) :
    parseWsFrames (encodeFrame op payload ++ tail) =
      match parseWsFrames tail with
      | .error e => .error e
      | .ok (fs, rem) => .ok (⟨op, payload⟩ :: fs, rem) := by
  have h0 : parseWsFrames (encodeFrame op payload ++ tail) =
      match parseWsFrames ((encodeFrame op payload ++ tail).drop
          (encodeFrame op payload).length) with
      | .error e => .error e
      | .ok (fs, rem) => .ok (⟨op, payload⟩ :: fs, rem) := by
    rw [parseWsFrames_eq, parseFrameAt_encode op payload tail hop hlen]
  rw [List.drop_left] at h0
  exact h0

theorem parseWsFrames_encode (op : Nat) (payload : List Nat) (hop : op < 16)
    (hlen : payload.length < 2 ^ 53) :
    parseWsFrames (encodeFrame op payload) = .ok ([⟨op, payload⟩], []) := by
  have h0 := parseWsFrames_encode_cons op payload [] hop hlen
  rw [List.append_nil] at h0
  rw [h0]
  rfl

theorem finishFrame_masked {buffer : List Nat} {op len hdr : Nat} (key wire rest : List Nat)
    (hdrop : buffer.drop hdr = key ++ (wire ++ rest)) (hkey : key.length = 4)
    (hlenw : wire.length = len)
    (hlen : buffer.length = hdr + 4 + len + rest.length) :
    finishFrame buffer op len hdr true = .frame ⟨op, unmaskBytes key wire⟩ (hdr + 4 + len) := by
  unfold finishFrame
  rw [if_pos rfl, if_neg (by omega)]
  have hk : (buffer.drop hdr).take 4 = key := by
    rw [hdrop, ← hkey, List.take_left]
  have hw : (buffer.drop (hdr + 4)).take len = wire := by
    have h1 : buffer.drop (hdr + 4) = (buffer.drop hdr).drop 4 := by
      rw [List.drop_drop, Nat.add_comm]
    rw [h1, hdrop, ← hkey, List.drop_left, ← hlenw, List.take_left]
  rw [hk, hw]

theorem parseFrameAt_masked (op : Nat) (key wire rest : List Nat) (hop : op < 16)
    (hkey : key.length = 4) (hlen : wire.length < 2 ^ 53) :
    parseFrameAt (maskedFrameBytes op key wire ++ rest) =
      .frame ⟨op, unmaskBytes key wire⟩ (maskedFrameBytes op key wire).length := by
  have hfin : (0x80 ||| op).land 0x80 = 0x80 := lor128_land128 op hop
  have hopc : (0x80 ||| op).land 0x0f = op := lor128_land15 op hop
  by_cases h1 : wire.length < 126
  · have henc : maskedFrameBytes op key wire =
        (0x80 ||| op) :: (0x80 ||| wire.length) :: (key ++ wire) := by
      unfold maskedFrameBytes
      rw [if_pos h1]
    rw [henc]
    have hbuf : ((0x80 ||| op) :: (0x80 ||| wire.length) :: (key ++ wire)) ++ rest =
        (0x80 ||| op) :: (0x80 ||| wire.length) :: (key ++ (wire ++ rest)) := by simp
    rw [hbuf]
    unfold parseFrameAt
    rw [show ((0x80 ||| op) :: (0x80 ||| wire.length) ::
        (key ++ (wire ++ rest))).getD 0 0 = 0x80 ||| op from rfl,
      show ((0x80 ||| op) :: (0x80 ||| wire.length) ::
        (key ++ (wire ++ rest))).getD 1 0 = 0x80 ||| wire.length from rfl,
      hfin, hopc, masked_small_land128 _ h1, masked_small_land127 _ h1]
    rw [if_neg (by simp), if_neg (by omega), if_neg (by omega), if_neg (by omega),
      show ((0x80 : Nat) != 0) = true from rfl]
    have hff : finishFrame ((0x80 ||| op) :: (0x80 ||| wire.length) ::
        (key ++ (wire ++ rest))) op wire.length 2 true =
        .frame ⟨op, unmaskBytes key wire⟩ (2 + 4 + wire.length) :=
      finishFrame_masked key wire rest rfl hkey rfl
        (by simp [List.length_append]; omega)
    rw [hff]
    simp [List.length_cons, List.length_append]
    omega
  · by_cases h2 : wire.length < 65536
    · have henc : maskedFrameBytes op key wire =
          (0x80 ||| op) :: 254 :: (be16 wire.length ++ (key ++ wire)) := by
        unfold maskedFrameBytes
        rw [if_neg (by omega), if_pos h2]
      rw [henc]
      have hbuf : ((0x80 ||| op) :: 254 :: (be16 wire.length ++ (key ++ wire))) ++ rest =
          (0x80 ||| op) :: 254 ::
            (wire.length / 256 % 256 :: wire.length % 256 :: (key ++ (wire ++ rest))) := by
        simp [be16]
      rw [hbuf]
      unfold parseFrameAt
      rw [show ((0x80 ||| op) :: 254 ::
          (wire.length / 256 % 256 :: wire.length % 256 :: (key ++ (wire ++ rest)))).getD 0 0 =
          0x80 ||| op from rfl,
        show ((0x80 ||| op) :: 254 ::
          (wire.length / 256 % 256 :: wire.length % 256 :: (key ++ (wire ++ rest)))).getD 1 0 =
          254 from rfl,
        hfin, hopc]
      rw [if_neg (by simp), if_neg (by simp), if_pos (by decide),
        if_neg (by simp [List.length_append])]
      have h16 : readUInt16BE ((0x80 ||| op) :: 254 ::
          (wire.length / 256 % 256 :: wire.length % 256 :: (key ++ (wire ++ rest)))) 2 =
          wire.length := by
        unfold readUInt16BE
        simp only [List.getD_cons_succ, List.getD_cons_zero]
        omega
      rw [h16, show ((254 : Nat).land 0x80 != 0) = true from rfl]
      have hff : finishFrame ((0x80 ||| op) :: 254 ::
          (wire.length / 256 % 256 :: wire.length % 256 :: (key ++ (wire ++ rest)))) op
          wire.length 4 true = .frame ⟨op, unmaskBytes key wire⟩ (4 + 4 + wire.length) :=
        finishFrame_masked key wire rest rfl hkey rfl
          (by simp [List.length_append]; omega)
      rw [hff]
      simp [be16, List.length_append]
      omega
    · have henc : maskedFrameBytes op key wire =
          (0x80 ||| op) :: 255 :: (be64 wire.length ++ (key ++ wire)) := by
        unfold maskedFrameBytes
        rw [if_neg (by omega), if_neg (by omega)]
      rw [henc]
      have hbuf : ((0x80 ||| op) :: 255 :: (be64 wire.length ++ (key ++ wire))) ++ rest =
          (0x80 ||| op) :: 255 ::
            (wire.length / 2 ^ 56 % 256 :: wire.length / 2 ^ 48 % 256 ::
              wire.length / 2 ^ 40 % 256 :: wire.length / 2 ^ 32 % 256 ::
              wire.length / 2 ^ 24 % 256 :: wire.length / 2 ^ 16 % 256 ::
              wire.length / 2 ^ 8 % 256 :: wire.length % 256 :: (key ++ (wire ++ rest))) := by
        simp [be64]
      rw [hbuf]
      unfold parseFrameAt
      rw [show ((0x80 ||| op) :: 255 ::
          (wire.length / 2 ^ 56 % 256 :: wire.length / 2 ^ 48 % 256 ::
            wire.length / 2 ^ 40 % 256 :: wire.length / 2 ^ 32 % 256 ::
            wire.length / 2 ^ 24 % 256 :: wire.length / 2 ^ 16 % 256 ::
            wire.length / 2 ^ 8 % 256 :: wire.length % 256 ::
              (key ++ (wire ++ rest)))).getD 0 0 = 0x80 ||| op from rfl,
        show ((0x80 ||| op) :: 255 ::
          (wire.length / 2 ^ 56 % 256 :: wire.length / 2 ^ 48 % 256 ::
            wire.length / 2 ^ 40 % 256 :: wire.length / 2 ^ 32 % 256 ::
            wire.length / 2 ^ 24 % 256 :: wire.length / 2 ^ 16 % 256 ::
            wire.length / 2 ^ 8 % 256 :: wire.length % 256 ::
              (key ++ (wire ++ rest)))).getD 1 0 = 255 from rfl,
        hfin, hopc]
      rw [if_neg (by simp), if_neg (by simp), if_neg (by decide), if_pos (by decide),
        if_neg (by simp [List.length_append])]
      have h64 : readUInt64BE ((0x80 ||| op) :: 255 ::
          (wire.length / 2 ^ 56 % 256 :: wire.length / 2 ^ 48 % 256 ::
            wire.length / 2 ^ 40 % 256 :: wire.length / 2 ^ 32 % 256 ::
            wire.length / 2 ^ 24 % 256 :: wire.length / 2 ^ 16 % 256 ::
            wire.length / 2 ^ 8 % 256 :: wire.length % 256 :: (key ++ (wire ++ rest)))) 2 =
          wire.length := by
        unfold readUInt64BE
        simp only [List.getD_cons_succ, List.getD_cons_zero]
        have hub : wire.length < 2 ^ 64 := by
          calc wire.length < 2 ^ 53 := hlen
          _ < 2 ^ 64 := by norm_num
        omega
      rw [h64, jsNumber_small hlen, show ((255 : Nat).land 0x80 != 0) = true from rfl]
      have hff : finishFrame ((0x80 ||| op) :: 255 ::
          (wire.length / 2 ^ 56 % 256 :: wire.length / 2 ^ 48 % 256 ::
            wire.length / 2 ^ 40 % 256 :: wire.length / 2 ^ 32 % 256 ::
            wire.length / 2 ^ 24 % 256 :: wire.length / 2 ^ 16 % 256 ::
            wire.length / 2 ^ 8 % 256 :: wire.length % 256 :: (key ++ (wire ++ rest)))) op
          wire.length 10 true = .frame ⟨op, unmaskBytes key wire⟩ (10 + 4 + wire.length) :=
        finishFrame_masked key wire rest rfl hkey rfl
          (by simp [List.length_append]; omega)
      rw [hff]
      simp [be64, List.length_append]
      omega

theorem parseWsFrames_masked (op : Nat) (key wire : List Nat) (hop : op < 16)
    (hkey : key.length = 4) (hlen : wire.length < 2 ^ 53) :
    parseWsFrames (maskedFrameBytes op key wire) = .ok ([⟨op, unmaskBytes key wire⟩], []) := by
  have h0 : parseWsFrames (maskedFrameBytes op key wire) =
      match parseWsFrames ((maskedFrameBytes op key wire ++ []).drop
          (maskedFrameBytes op key wire).length) with
      | .error e => .error e
      | .ok (fs, rem) => .ok (⟨op, unmaskBytes key wire⟩ :: fs, rem) := by
    conv =>
      lhs
      rw [show maskedFrameBytes op key wire = maskedFrameBytes op key wire ++ [] by simp]
    rw [parseWsFrames_eq, parseFrameAt_masked op key wire [] hop hkey hlen]
  rw [List.drop_left] at h0
  rw [h0]
  rfl

theorem parseWsFrames_error_aux :
    ∀ (n : Nat) (b : List Nat) (e : String), b.length ≤ n →
      parseWsFrames b = .error e → e = "Fragmented frames not supported." := by
  intro n
  induction n with
  | zero =>
    intro b e h hp
    have hb : b = [] := List.length_eq_zero.mp (Nat.le_zero.mp h)
    subst hb
    exact Except.noConfusion hp
  | succ n ih =>
    intro b e h hp
    cases hq : parseFrameAt b with
    | needMore =>
      have h1 : parseWsFrames b = .ok ([], b) := by rw [parseWsFrames_eq, hq]
      rw [h1] at hp
      exact Except.noConfusion hp
    | fragErr =>
      have h1 : parseWsFrames b = .error "Fragmented frames not supported." := by
        rw [parseWsFrames_eq, hq]
      rw [h1] at hp
      simp only [Except.error.injEq] at hp
      exact hp.symm
    | frame f c =>
      have hb := parseFrameAt_frame_bounds hq
      have h1 : parseWsFrames b =
          match parseWsFrames (b.drop c) with
          | .error e => .error e
          | .ok (fs1, rem1) => .ok (f :: fs1, rem1) := by
        rw [parseWsFrames_eq b, hq]
      rw [h1] at hp
      cases hr : parseWsFrames (b.drop c) with
      | error e2 =>
        rw [hr] at hp
        simp only [Except.error.injEq] at hp
        subst hp
        exact ih (b.drop c) e2 (by simp only [List.length_drop]; omega) hr
      | ok p =>
        obtain ⟨fs1, rem1⟩ := p
        rw [hr] at hp
        exact Except.noConfusion hp

/-- The decoder has exactly one failure mode: the fragmentation error. In
particular it performs no safe-integer validation of 64-bit lengths. -/
theorem parseWsFrames_error_msg {b : List Nat} {e : String}
    (h : parseWsFrames b = .error e) : e = "Fragmented frames not supported." :=
  parseWsFrames_error_aux b.length b e (Nat.le_refl _) h

theorem log2Fuel_le {fuel n : Nat} (h1 : 1 ≤ n) (h2 : n < 2 ^ fuel) :
    2 ^ log2Fuel fuel n ≤ n := by
  induction fuel generalizing n with
  | zero => omega
  | succ fuel ih =>
    unfold log2Fuel
    by_cases hn : 2 ≤ n
    · rw [if_pos hn]
      have ihx := ih (n := n / 2) (by omega) (by omega)
      calc 2 ^ (log2Fuel fuel (n / 2) + 1) = 2 ^ log2Fuel fuel (n / 2) * 2 := by ring
      _ ≤ n / 2 * 2 := by omega
      _ ≤ n := by omega
    · rw [if_neg hn]
      simpa using h1

theorem log2Fuel_lt {fuel n : Nat} (h2 : n < 2 ^ fuel) :
    n < 2 ^ (log2Fuel fuel n + 1) := by
  induction fuel generalizing n with
  | zero =>
    unfold log2Fuel
    omega
  | succ fuel ih =>
    unfold log2Fuel
    by_cases hn : 2 ≤ n
    · rw [if_pos hn]
      have ihx := ih (n := n / 2) (by omega)
      have : 2 ^ (log2Fuel fuel (n / 2) + 1 + 1) = 2 ^ (log2Fuel fuel (n / 2) + 1) * 2 := by
        ring
      omega
    · rw [if_neg hn]
      omega

theorem jsNumber_ge {n : Nat} (h1 : 2 ^ 53 ≤ n) (h2 : n < 2 ^ 64) :
    2 ^ 53 ≤ jsNumber n := by
  unfold jsNumber
  rw [if_neg (by omega)]
  have hlow : 2 ^ log2Fuel 64 n ≤ n := log2Fuel_le (by omega) h2
  have hhigh : n < 2 ^ (log2Fuel 64 n + 1) := log2Fuel_lt h2
  have he : 53 ≤ log2Fuel 64 n := by
    by_contra hc
    push_neg at hc
    have : 2 ^ (log2Fuel 64 n + 1) ≤ 2 ^ 53 := Nat.pow_le_pow_right (by omega) (by omega)
    omega
  have hq : 2 ^ 53 ≤ n / 2 ^ (log2Fuel 64 n - 52) * 2 ^ (log2Fuel 64 n - 52) := by
    have hdiv : 2 ^ log2Fuel 64 n / 2 ^ (log2Fuel 64 n - 52) ≤ n / 2 ^ (log2Fuel 64 n - 52) :=
      Nat.div_le_div_right hlow
    have hpow : 2 ^ log2Fuel 64 n / 2 ^ (log2Fuel 64 n - 52) = 2 ^ 52 := by
      rw [Nat.pow_div (by omega) (by omega)]
      congr 1
      omega
    have h52 : 2 ^ 52 ≤ n / 2 ^ (log2Fuel 64 n - 52) := by omega
    calc 2 ^ 53 ≤ 2 ^ 52 * 2 ^ (log2Fuel 64 n - 52) := by
          rw [← Nat.pow_add]
          exact Nat.pow_le_pow_right (by omega) (by omega)
    _ ≤ n / 2 ^ (log2Fuel 64 n - 52) * 2 ^ (log2Fuel 64 n - 52) :=
          Nat.mul_le_mul_right _ h52
  dsimp only
  split
  · exact hq
  split
  · calc 2 ^ 53 ≤ n / 2 ^ (log2Fuel 64 n - 52) * 2 ^ (log2Fuel 64 n - 52) := hq
    _ ≤ (n / 2 ^ (log2Fuel 64 n - 52) + 1) * 2 ^ (log2Fuel 64 n - 52) := by
          apply Nat.mul_le_mul_right
          omega
  split
  · exact hq
  · calc 2 ^ 53 ≤ n / 2 ^ (log2Fuel 64 n - 52) * 2 ^ (log2Fuel 64 n - 52) := hq
    _ ≤ (n / 2 ^ (log2Fuel 64 n - 52) + 1) * 2 ^ (log2Fuel 64 n - 52) := by
          apply Nat.mul_le_mul_right
          omega

theorem parse127_retains {b0 b1 : Nat} {rest : List Nat}
    (hfin : b0.land 0x80 ≠ 0) (h127 : b1.land 0x7f = 127)
    (hbig : 2 ^ 53 ≤ readUInt64BE (b0 :: b1 :: rest) 2)
    (hsmall : readUInt64BE (b0 :: b1 :: rest) 2 < 2 ^ 64)
    (hbuf : (b0 :: b1 :: rest).length < 2 ^ 53) :
    parseWsFrames (b0 :: b1 :: rest) = .ok ([], b0 :: b1 :: rest) := by
  have hstep : parseFrameAt (b0 :: b1 :: rest) = .needMore := by
    unfold parseFrameAt
    rw [show ((b0 : Nat) :: b1 :: rest).getD 0 0 = b0 from rfl,
      show ((b0 : Nat) :: b1 :: rest).getD 1 0 = b1 from rfl,
      if_neg (by simp), if_neg hfin, h127, if_neg (by omega), if_pos rfl]
    by_cases h10 : (b0 :: b1 :: rest).length < 10
    · rw [if_pos h10]
    · rw [if_neg h10]
      have hjs : 2 ^ 53 ≤ jsNumber (readUInt64BE (b0 :: b1 :: rest) 2) :=
        jsNumber_ge hbig hsmall
      cases hm : (b1.land 0x80 != 0) with
      | false =>
        unfold finishFrame
        rw [if_neg (by simp), if_pos (by omega)]
      | true =>
        unfold finishFrame
        rw [if_pos rfl, if_pos (by omega)]
  rw [parseWsFrames_eq, hstep]

theorem dataStep_error (st : ReadyState) (buf chunk : List Nat) (e : String)
    (h : parseWsFrames (buf ++ chunk) = .error e) :
    dataStep st buf chunk =
      ([BridgeAction.writeClient (encodeFrame 0x1 (strBytes (errorJson e))),
        BridgeAction.closeBoth], wsClose st, buf ++ chunk) := by
  unfold dataStep
  dsimp only
  rw [h]

theorem processFrames_skip (st : ReadyState) (f : WsFrame) (rest : List WsFrame)
    (h : st ≠ .opened) : processFrames st (f :: rest) = processFrames st rest := by
  conv_lhs => unfold processFrames
  rw [if_pos h]

theorem processFrames_close (p : List Nat) (rest : List WsFrame) :
    processFrames .opened (⟨0x8, p⟩ :: rest) = ([BridgeAction.closeBoth], .closing) := by
  conv_lhs => unfold processFrames
  rw [if_neg (by simp), if_pos rfl]
  rfl

theorem processFrames_ping (p : List Nat) (rest : List WsFrame) :
    processFrames .opened (⟨0x9, p⟩ :: rest) =
      (BridgeAction.writeClient (encodeFrame 0xA p) :: (processFrames .opened rest).1,
        (processFrames .opened rest).2) := by
  conv_lhs => unfold processFrames
  rw [if_neg (by simp), if_neg (by simp), if_pos rfl]

theorem parseFrameAt_fin0 {b0 : Nat} (b1 : Nat) (rest : List Nat)
    (hfin : b0.land 0x80 = 0) : parseFrameAt (b0 :: b1 :: rest) = .fragErr := by
  unfold parseFrameAt
  rw [show ((b0 : Nat) :: b1 :: rest).getD 0 0 = b0 from rfl,
    if_neg (by simp), if_pos hfin]

theorem parseWsFrames_encodeList_fin0 (fs : List WsFrame) (b0 b1 : Nat) (rest : List Nat)
    (hvalid : ∀ f ∈ fs, f.opcode < 16 ∧ f.payload.length < 2 ^ 53)
    (hfin : b0.land 0x80 = 0) :
    parseWsFrames ((fs.map fun f => encodeFrame f.opcode f.payload).flatten
        ++ (b0 :: b1 :: rest)) =
      .error "Fragmented frames not supported." := by
  induction fs with
  | nil =>
    rw [List.map_nil, List.flatten_nil, List.nil_append, parseWsFrames_eq,
      parseFrameAt_fin0 b1 rest hfin]
  | cons f fs ih =>
    have hf := hvalid f (by simp)
    have hrest : ∀ g ∈ fs, g.opcode < 16 ∧ g.payload.length < 2 ^ 53 := fun g hg =>
      hvalid g (by simp [hg])
    rw [List.map_cons, List.flatten_cons, List.append_assoc,
      parseWsFrames_encode_cons f.opcode f.payload _ hf.1 hf.2, ih hrest]

/-- C1: for every frame with opcode in \x7btext, binary, close, ping, pong\x7d
and every payload of length 0, 125, 126, 65535, or 65536 bytes, decoding
the bytes produced by encoding the frame unmasked yields exactly one frame
with the original opcode and payload and an empty remainder. -/
theorem c1_encode_decode_roundtrip (op : Nat) (payload : List Nat)
    (hop : op ∈ [0x1, 0x2, 0x8, 0x9, 0xA])
    (hlen : payload.length ∈ [0, 125, 126, 65535, 65536]) :
    parseWsFrames (encodeFrame op payload) = .ok ([⟨op, payload⟩], []) := by
  apply parseWsFrames_encode
  · simp only [List.mem_cons, List.not_mem_nil, or_false] at hop
    rcases hop with h | h | h | h | h <;> omega
  · simp only [List.mem_cons, List.not_mem_nil, or_false] at hlen
    rcases hlen with h | h | h | h | h <;> omega

theorem c1_encode_decode_roundtrip_witness :
    parseWsFrames (encodeFrame 0x1 []) = .ok ([⟨0x1, []⟩], []) :=
  c1_encode_decode_roundtrip 0x1 [] (by decide) (by decide)

/-- C2: the decoder consumes exactly the complete frames at the front of
the buffer and retains every unconsumed byte as a suffix remainder
(insufficient bytes for a header, mask key or payload produce no frame);
consequently decoding a stream split into two chunks — the second chunk
appended to the first chunk's remainder — yields the same frames (or the
same failure) as decoding the whole stream at once. -/
theorem c2_retention_and_resume (c1 c2 : List Nat) :
    (∀ fs rem, parseWsFrames c1 = .ok (fs, rem) → ∃ k, k ≤ c1.length ∧ rem = c1.drop k) ∧
    parseWsFrames (c1 ++ c2) =
      (match parseWsFrames c1 with
       | .error e => .error e
       | .ok (fs1, rem1) =>
         match parseWsFrames (rem1 ++ c2) with
         | .error e => .error e
         | .ok (fs2, rem2) => .ok (fs1 ++ fs2, rem2)) :=
  ⟨fun _ _ h => parseWsFrames_remainder h, parseWsFrames_append c1 c2⟩

theorem c2_retention_and_resume_witness :
    (∃ k, k ≤ ([0x81, 1, 65] : List Nat).length ∧ ([] : List Nat) = [0x81, 1, 65].drop k) ∧
    parseWsFrames ([0x81, 1] ++ [65]) = .ok ([⟨0x1, [65]⟩], []) := by
  constructor
  · exact (c2_retention_and_resume [0x81, 1, 65] []).1 [⟨0x1, [65]⟩] [] (by decide)
  · have h := (c2_retention_and_resume [0x81, 1] [65]).2
    rw [h]
    decide

/-- C3 (counterexample): a ping frame decoded in the `Connecting` state —
upstream handle not yet `OPEN` — produces no pong at all (the readiness
guard at the top of the frame loop skips it), refuting the claim that a
ping in any non-Closed state is answered with exactly one pong. -/
theorem c3_ping_connecting_counterexample :
    processFrames .connecting [⟨0x9, [42]⟩] = ([], .connecting) := by decide

/-- C3 (amended): a client ping frame decoded while the upstream handle is
`OPEN` (Active) produces exactly one pong frame carrying the identical
payload, forwards nothing to the upstream side for that frame and leaves
the session state unchanged; a ping decoded while the upstream is still
`Connecting` is discarded without a pong and without any other effect. -/
theorem c3_ping_pong (P : List Nat) (rest : List WsFrame) :
    processFrames .opened (⟨0x9, P⟩ :: rest) =
      (BridgeAction.writeClient (encodeFrame 0xA P) :: (processFrames .opened rest).1,
        (processFrames .opened rest).2) ∧
    processFrames .connecting (⟨0x9, P⟩ :: rest) = processFrames .connecting rest :=
  ⟨processFrames_ping P rest, processFrames_skip _ _ _ (by simp)⟩

/-- C4 (counterexample): a close frame decoded in the `Connecting` state is
skipped by the readiness guard — neither transport is closed and the state
is unchanged — refuting the claim that a close frame in any non-Closed
state closes both transports. -/
theorem c4_close_connecting_counterexample :
    processFrames .connecting [⟨0x8, []⟩] = ([], .connecting) := by decide

/-- C4 (amended): a client close frame decoded while the upstream handle is
`OPEN` triggers exactly one `closeBoth` (closing both transports), aborts
processing of any later frames of the batch, and moves the session to the
Closed phase; `closeBoth` itself is idempotent — applying it to an
already-closed transport pair is a no-op and raises nothing (each close
is wrapped in try/catch in the source). -/
theorem c4_close_active (p : List Nat) (rest : List WsFrame) :
    processFrames .opened (⟨0x8, p⟩ :: rest) = ([BridgeAction.closeBoth], .closing) ∧
    sessionPhase (processFrames .opened (⟨0x8, p⟩ :: rest)).2 = .closedPhase ∧
    (processFrames .opened (⟨0x8, p⟩ :: rest)).1.count BridgeAction.closeBoth = 1 ∧
    (∀ t, closeBothFn (closeBothFn t) = closeBothFn t) := by
  have h := processFrames_close p rest
  refine ⟨h, by rw [h]; rfl, by rw [h]; decide, ?_⟩
  intro t
  obtain ⟨u, cl⟩ := t
  cases u <;> rfl

/-- C5: whenever the trimmed upstream credential or trimmed endpoint URL is
empty, the configuration gate writes exactly one structured error frame —
whose message names the missing variable — rejects the session (the
socket is ended) and never proceeds to construct the upstream
connection. -/
theorem c5_config_missing (key url : String)
    (h : jsTrim key = "" ∨ jsTrim url = "") :
    upgradeConfigStep key url =
      .rejected [encodeFrame 0x1 (strBytes (errorJson
          (if jsTrim key = "" then missingKeyMsg else missingUrlMsg))),
        encodeFrame 0x1 []] ∧
    upgradeConfigStep key url ≠ .proceed ∧
    ([encodeFrame 0x1 (strBytes (errorJson
        (if jsTrim key = "" then missingKeyMsg else missingUrlMsg))),
      encodeFrame 0x1 []].countP isErrorFrameBytes = 1) := by
  refine ⟨?_, ?_, ?_⟩
  · unfold upgradeConfigStep
    rw [if_pos h]
  · unfold upgradeConfigStep
    rw [if_pos h]
    simp
  · by_cases hk : jsTrim key = ""
    · rw [if_pos hk]
      decide
    · rw [if_neg hk]
      decide

theorem c5_config_missing_witness :
    upgradeConfigStep "" "url" =
      .rejected [encodeFrame 0x1 (strBytes (errorJson missingKeyMsg)), encodeFrame 0x1 []] := by
  have h := (c5_config_missing "" "url" (Or.inl (by decide))).1
  have hc : jsTrim "" = "" := by decide
  rw [if_pos hc] at h
  exact h

/-- C6: the handshake accepts an upgrade request exactly when the path is
the voice path, a key header is present and the version header equals
"13"; a path mismatch terminates the transport with zero response bytes; a
missing key or wrong version receives the 400 Bad Request status line; on
success the 101 response carries an accept token equal to
base64(SHA-1(key ++ "258EAFA5-E914-47DA-95CA-C5AB0DC85B11")). -/
theorem c6_handshake (r : UpgradeRequest) :
    ((handshakeUpgrade r).accepted = true ↔
      (r.pathname = "/voice" ∧ r.secKey ≠ none ∧ r.secVersion = some "13")) ∧
    (r.pathname ≠ "/voice" → handshakeUpgrade r = ⟨"", false⟩) ∧
    (r.pathname = "/voice" → r.secKey = none ∨ r.secVersion ≠ some "13" →
      handshakeUpgrade r = ⟨badRequestBytes, false⟩) ∧
    (∀ key, r.pathname = "/voice" → r.secKey = some key → r.secVersion = some "13" →
      handshakeUpgrade r =
        ⟨response101 (base64Encode (sha1Bytes (strBytes (key ++ wsGuid)))), true⟩) := by
  obtain ⟨path, k, v⟩ := r
  by_cases hp : path = "/voice"
  · subst hp
    cases k with
    | none =>
      have hout : handshakeUpgrade ⟨"/voice", none, v⟩ = ⟨badRequestBytes, false⟩ := by
        unfold handshakeUpgrade
        rw [if_neg (by simp)]
      refine ⟨?_, ?_, ?_, ?_⟩
      · rw [hout]
        simp
      · intro hcon
        exact absurd rfl hcon
      · intro _ _
        exact hout
      · intro key _ hk
        exact absurd hk (by simp)
    | some key =>
      by_cases hv : v = some "13"
      · subst hv
        have hout : handshakeUpgrade ⟨"/voice", some key, some "13"⟩ =
            ⟨response101 (base64Encode (sha1Bytes (strBytes (key ++ wsGuid)))), true⟩ := by
          unfold handshakeUpgrade wsAccept
          rw [if_neg (by simp)]
          dsimp only
          rw [if_neg (by simp)]
        refine ⟨?_, ?_, ?_, ?_⟩
        · rw [hout]
          simp
        · intro hcon
          exact absurd rfl hcon
        · intro _ hcon
          rcases hcon with hn | hn
          · exact absurd hn (by simp)
          · exact absurd rfl hn
        · intro key2 _ hk _
          have hkk : key2 = key := by
            simpa using hk.symm
          subst hkk
          exact hout
      · have hout : handshakeUpgrade ⟨"/voice", some key, v⟩ = ⟨badRequestBytes, false⟩ := by
          unfold handshakeUpgrade
          rw [if_neg (by simp)]
          dsimp only
          rw [if_pos (by simpa using hv)]
        refine ⟨?_, ?_, ?_, ?_⟩
        · rw [hout]
          simp [hv]
        · intro hcon
          exact absurd rfl hcon
        · intro _ _
          exact hout
        · intro key2 _ _ hv2
          exact absurd hv2 hv
  · have hout : handshakeUpgrade ⟨path, k, v⟩ = ⟨"", false⟩ := by
      unfold handshakeUpgrade
      rw [if_pos (by simpa using hp)]
    refine ⟨?_, ?_, ?_, ?_⟩
    · rw [hout]
      simp [hp]
    · intro _
      exact hout
    · intro hcon
      exact absurd hcon hp
    · intro key hcon
      exact absurd hcon hp

theorem c6_handshake_witness :
    handshakeUpgrade ⟨"/other", some "k", some "13"⟩ = ⟨"", false⟩ ∧
    handshakeUpgrade ⟨"/voice", some "k", some "12"⟩ = ⟨badRequestBytes, false⟩ ∧
    handshakeUpgrade ⟨"/voice", some "k", some "13"⟩ =
      ⟨response101 (base64Encode (sha1Bytes (strBytes ("k" ++ wsGuid)))), true⟩ :=
  ⟨(c6_handshake _).2.1 (by decide),
    (c6_handshake _).2.2.1 rfl (Or.inr (by decide)),
    (c6_handshake _).2.2.2 "k" rfl rfl rfl⟩

/-- C7: a buffer consisting of any complete encoded frames followed by a
header whose FIN bit is clear makes the decoder fail with the
fragmentation error — no frame from that header onward is produced — and
the data handler then writes exactly one structured error frame to the
client before tearing both transports down. -/
theorem c7_fin0_terminates (fs : List WsFrame) (b0 b1 : Nat) (rest : List Nat)
    (st : ReadyState) (buf chunk : List Nat)
    (hvalid : ∀ f ∈ fs, f.opcode < 16 ∧ f.payload.length < 2 ^ 53)
    (hfin : b0.land 0x80 = 0)
    (hbuf : buf ++ chunk =
      (fs.map fun f => encodeFrame f.opcode f.payload).flatten ++ (b0 :: b1 :: rest)) :
    parseWsFrames (buf ++ chunk) = .error "Fragmented frames not supported." ∧
    dataStep st buf chunk =
      ([BridgeAction.writeClient (encodeFrame 0x1 (strBytes (errorJson
          "Fragmented frames not supported."))), BridgeAction.closeBoth],
        wsClose st, buf ++ chunk) ∧
    ([BridgeAction.writeClient (encodeFrame 0x1 (strBytes (errorJson
        "Fragmented frames not supported."))), BridgeAction.closeBoth].countP
      (fun a => match a with
        | BridgeAction.writeClient bs => isErrorFrameBytes bs
        | _ => false) = 1) := by
  have hparse : parseWsFrames (buf ++ chunk) = .error "Fragmented frames not supported." := by
    rw [hbuf]
    exact parseWsFrames_encodeList_fin0 fs b0 b1 rest hvalid hfin
  refine ⟨hparse, dataStep_error st buf chunk _ hparse, by decide⟩

theorem c7_fin0_terminates_witness :
    parseWsFrames (([] : List Nat) ++ [0x81, 1, 65, 0, 0]) =
      .error "Fragmented frames not supported." ∧
    dataStep .opened [] [0x81, 1, 65, 0, 0] =
      ([BridgeAction.writeClient (encodeFrame 0x1 (strBytes (errorJson
          "Fragmented frames not supported."))), BridgeAction.closeBoth],
        wsClose .opened, ([] : List Nat) ++ [0x81, 1, 65, 0, 0]) ∧
    ([BridgeAction.writeClient (encodeFrame 0x1 (strBytes (errorJson
        "Fragmented frames not supported."))), BridgeAction.closeBoth].countP
      (fun a => match a with
        | BridgeAction.writeClient bs => isErrorFrameBytes bs
        | _ => false) = 1) :=
  c7_fin0_terminates [⟨0x1, [65]⟩] 0 0 [] .opened [] [0x81, 1, 65, 0, 0]
    (by decide) (by decide) (by decide)

/-- C8: a complete masked frame is decoded by taking the 4 bytes after the
length fields as the mask key and XOR-ing each buffered payload byte `i`
with `key[i mod 4]`; in particular the masked text frame with key
[0x01,0x02,0x03,0x04] carrying the masked bytes of "hi" decodes to payload
"hi" (see the witness). -/
theorem c8_masked_decode (op : Nat) (key wire : List Nat) (hop : op < 16)
    (hkey : key.length = 4) (hlen : wire.length < 2 ^ 53) :
    parseWsFrames (maskedFrameBytes op key wire) =
      .ok ([⟨op, unmaskBytes key wire⟩], []) :=
  parseWsFrames_masked op key wire hop hkey hlen

theorem c8_masked_decode_witness :
    parseWsFrames [0x81, 0x82, 0x01, 0x02, 0x03, 0x04, 0x69, 0x6b] =
      .ok ([⟨0x1, strBytes "hi"⟩], []) := by
  have h := c8_masked_decode 0x1 [0x01, 0x02, 0x03, 0x04] [0x69, 0x6b]
    (by decide) (by decide) (by decide)
  have e1 : maskedFrameBytes 0x1 [0x01, 0x02, 0x03, 0x04] [0x69, 0x6b] =
      [0x81, 0x82, 0x01, 0x02, 0x03, 0x04, 0x69, 0x6b] := by decide
  have e2 : unmaskBytes [0x01, 0x02, 0x03, 0x04] [0x69, 0x6b] = strBytes "hi" := by decide
  rw [e1, e2] at h
  exact h

/-- C9 (counterexample): the decoder performs no safe-integer validation of
the 64-bit extended length. For the frame header declaring length
2^53 + 1 the conversion to a JavaScript number is imprecise
(`jsNumber` rounds it to 2^53), yet decoding proceeds without any error,
treating the frame as incomplete and retaining the bytes — refuting the
claim that the value is validated against the safe-integer range before
being used. -/
theorem c9_no_validation_counterexample :
    readUInt64BE [0x81, 0x7f, 0x00, 0x20, 0, 0, 0, 0, 0, 0x01] 2 = 2 ^ 53 + 1 ∧
    jsNumber (2 ^ 53 + 1) ≠ 2 ^ 53 + 1 ∧
    parseWsFrames [0x81, 0x7f, 0x00, 0x20, 0, 0, 0, 0, 0, 0x01] =
      .ok ([], [0x81, 0x7f, 0x00, 0x20, 0, 0, 0, 0, 0, 0x01]) :=
  ⟨by decide, by decide, by decide⟩

/-- C9 (amended): on base length 127 the decoder reads 8 bytes as a
big-endian 64-bit length and converts it with JavaScript `Number`
semantics without any safe-integer validation: the decoder's only failure
mode is the fragmentation error, and any declared length of at least
2^53 (whose conversion may be imprecise) simply exceeds every attainable
buffer, so the bytes are retained as an incomplete frame and no frame is
ever produced from an imprecisely converted length. -/
theorem c9_length127_no_validation :
    (∀ (b : List Nat) (e : String), parseWsFrames b = .error e →
      e = "Fragmented frames not supported.") ∧
    (∀ (b0 b1 : Nat) (rest : List Nat), b0.land 0x80 ≠ 0 → b1.land 0x7f = 127 →
      2 ^ 53 ≤ readUInt64BE (b0 :: b1 :: rest) 2 →
      readUInt64BE (b0 :: b1 :: rest) 2 < 2 ^ 64 →
      (b0 :: b1 :: rest).length < 2 ^ 53 →
      parseWsFrames (b0 :: b1 :: rest) = .ok ([], b0 :: b1 :: rest)) :=
  ⟨fun _ _ h => parseWsFrames_error_msg h,
    fun _ _ _ h1 h2 h3 h4 h5 => parse127_retains h1 h2 h3 h4 h5⟩

theorem c9_length127_no_validation_witness :
    ("Fragmented frames not supported." = "Fragmented frames not supported.") ∧
    parseWsFrames [0x81, 0xff, 0x00, 0x20, 0, 0, 0, 0, 0, 0x01] =
      .ok ([], [0x81, 0xff, 0x00, 0x20, 0, 0, 0, 0, 0, 0x01]) :=
  ⟨c9_length127_no_validation.1 [0, 0] "Fragmented frames not supported." (by decide),
    c9_length127_no_validation.2 0x81 0xff [0x00, 0x20, 0, 0, 0, 0, 0, 0x01]
      (by decide) (by decide) (by decide) (by decide) (by decide)⟩

/-- C10: a session rejected for missing configuration receives, after the
structured error frame, one additional empty text frame (FIN = 1, opcode
0x1, zero-length payload, wire bytes [0x81, 0x00]) before the transport is
ended, so the client observes two frames. -/
theorem c10_extra_empty_frame (key url : String)
    (h : jsTrim key = "" ∨ jsTrim url = "") :
    ∃ msg, upgradeConfigStep key url =
        .rejected [encodeFrame 0x1 (strBytes (errorJson msg)), encodeFrame 0x1 []] ∧
      encodeFrame 0x1 [] = [0x81, 0x00] ∧
      (∀ writes, upgradeConfigStep key url = .rejected writes → writes.length = 2) := by
  refine ⟨if jsTrim key = "" then missingKeyMsg else missingUrlMsg, ?_, by decide, ?_⟩
  · unfold upgradeConfigStep
    rw [if_pos h]
  · intro writes hw
    unfold upgradeConfigStep at hw
    rw [if_pos h] at hw
    simp only [ConfigOutcome.rejected.injEq] at hw
    rw [← hw]
    rfl

theorem c10_extra_empty_frame_witness :
    ∃ msg, upgradeConfigStep "k" " " =
        .rejected [encodeFrame 0x1 (strBytes (errorJson msg)), encodeFrame 0x1 []] ∧
      encodeFrame 0x1 [] = [0x81, 0x00] ∧
      (∀ writes, upgradeConfigStep "k" " " = .rejected writes → writes.length = 2) :=
  c10_extra_empty_frame "k" " " (Or.inr (by decide))
